import Mathlib

set_option maxRecDepth 8000
set_option linter.unusedVariables false
set_option linter.unnecessarySeqFocus false

/-!
Shallow embedding of the `vecnet.winhpc` WebAPI client
(`src/vecnet/winhpc/webapi.py`).

The Python module's XML handling goes through `xml.dom.minidom` /
`xml.etree.ElementTree`.  Those libraries are modelled here by a small
XML document model (`XmlNode`), a tokenizer and a stack-based tree
builder (`minidomParse`).  The model covers documents without entity
references, comments, CDATA or attribute values containing the
closing-bracket character; every document this client builds or
consumes in the verified scenarios is of that restricted form.

Python exceptions are modelled by `PyError`; a function that can raise
returns `Except PyError _`.  The HTTP layer (`requests`) is modelled by
a `Transport` oracle mapping the index of the call to its outcome, and
the client object's mutable fields are an explicit state `St` threaded
through each method, with a `calls` counter recording how many HTTP
exchanges were attempted.
-/

/-- XML document node: an element with a tag and children, or a text node. -/
inductive XmlNode where
  | text (data : String)
  | elem (tag : String) (children : List XmlNode)
deriving Repr

/-- Tokens of the XML surface syntax. -/
inductive Tok where
  | openTag (tag : String)
  | selfTag (tag : String)
  | closeTag (tag : String)
  | textTok (data : String)
deriving DecidableEq, Repr

/-- Tokenizer mode: inside text, right after an opening bracket, inside a
tag name, or skipping attributes. -/
inductive TokMode where
  | text (buf : List Char)
  | tagStart
  | tagName (closing : Bool) (buf : List Char)
  | attrs (tag : List Char) (slash : Bool)
deriving DecidableEq, Repr

/-- A pending text buffer becomes a text token unless it is empty. -/
def txtToksOf (buf : List Char) : List Tok :=
  if buf.isEmpty then [] else [Tok.textTok (String.mk buf)]

/-- One step of the XML tokenizer state machine. -/
def tokStep : Option (TokMode × List Tok) → Char → Option (TokMode × List Tok)
  | none, _ => none
  | some (TokMode.text buf, toks), c =>
    if c = '<' then some (TokMode.tagStart, toks ++ txtToksOf buf)
    else some (TokMode.text (buf ++ [c]), toks)
  | some (TokMode.tagStart, toks), c =>
    if c = '/' then some (TokMode.tagName true [], toks)
    else if c = '>' ∨ c = ' ' then none
    else some (TokMode.tagName false [c], toks)
  | some (TokMode.tagName closing buf, toks), c =>
    if c = '>' then
      some (TokMode.text [],
        toks ++ [if closing then Tok.closeTag (String.mk buf) else Tok.openTag (String.mk buf)])
    else if c = ' ' then
      if closing then none else some (TokMode.attrs buf false, toks)
    else if c = '/' then
      if closing then none else some (TokMode.attrs buf true, toks)
    else some (TokMode.tagName closing (buf ++ [c]), toks)
  | some (TokMode.attrs tag slash, toks), c =>
    if c = '>' then
      some (TokMode.text [],
        toks ++ [if slash then Tok.selfTag (String.mk tag) else Tok.openTag (String.mk tag)])
    else some (TokMode.attrs tag (c == '/'), toks)

/-- Tokenize an XML document string. -/
def tokenize (s : String) : Option (List Tok) :=
  match s.data.foldl tokStep (some (TokMode.text [], [])) with
  | some (TokMode.text buf, toks) => some (toks ++ txtToksOf buf)
  | _ => none

/-- Tree-builder state: a stack of open elements (tag and the children
collected so far) and the completed root element, if any. -/
abbrev TreeState := Option (List (String × List XmlNode) × Option XmlNode)

/-- One step of the stack-based tree builder. -/
def treeStep : TreeState → Tok → TreeState
  | none, _ => none
  | some (stack, root), tok =>
    match root with
    | some _ => none
    | none =>
      match tok, stack with
      | Tok.openTag t, _ => some ((t, []) :: stack, none)
      | Tok.selfTag t, [] => some ([], some (XmlNode.elem t []))
      | Tok.selfTag t, (pt, pcs) :: rest => some ((pt, pcs ++ [XmlNode.elem t []]) :: rest, none)
      | Tok.textTok _, [] => none
      | Tok.textTok s, (pt, pcs) :: rest => some ((pt, pcs ++ [XmlNode.text s]) :: rest, none)
      | Tok.closeTag _, [] => none
      | Tok.closeTag t, (pt, pcs) :: rest =>
        if t = pt then
          match rest with
          | [] => some ([], some (XmlNode.elem pt pcs))
          | (qt, qcs) :: rest2 => some ((qt, qcs ++ [XmlNode.elem pt pcs]) :: rest2, none)
        else none

/-- Parse an XML document string into its root element; `none` models a
parse exception (`xml.parsers.expat.ExpatError`). -/
def minidomParse (s : String) : Option XmlNode :=
  match tokenize s with
  | none => none
  | some toks =>
    match toks.foldl treeStep (some ([], none)) with
    | some ([], some root) => some root
    | _ => none

mutual
/-- Model of `getElementsByTagName`: all elements with the given tag, in
document (pre)order, the node itself included when it matches. -/
def getElementsByTagName (tag : String) : XmlNode → List XmlNode
  | XmlNode.text _ => []
  | XmlNode.elem t cs =>
    (if t = tag then [XmlNode.elem t cs] else []) ++ getElementsByTagNameList tag cs

/-- `getElementsByTagName` mapped over a list of children. -/
def getElementsByTagNameList (tag : String) : List XmlNode → List XmlNode
  | [] => []
  | n :: ns => getElementsByTagName tag n ++ getElementsByTagNameList tag ns
end

/-- Whether a node is an element (`ElementTree` children are elements only). -/
def isElem : XmlNode → Bool
  | XmlNode.elem _ _ => true
  | XmlNode.text _ => false

/-- The element children of a node, as `ElementTree` indexing sees them. -/
def elemChildren : XmlNode → List XmlNode
  | XmlNode.text _ => []
  | XmlNode.elem _ cs => cs.filter isElem

/-- Model of `ElementTree`'s `.text`: the text before the first child
element, i.e. the data of a leading text node, else `None`. -/
def etText : XmlNode → Option String
  | XmlNode.elem _ (XmlNode.text d :: _) => some d
  | _ => none

/-- Python exceptions raised by the client code. -/
inductive PyError where
  | typeError
  | indexError
  | attributeError
  | keyError
  | parseError
  | runtimeError (msg : String)
  | notImplementedError (msg : String)
deriving DecidableEq, Repr

/-- Model of `node.firstChild.data`: the data of the first child when it
is a text node; `AttributeError` when there is no first child (`None.data`)
or the first child is an element (elements have no `.data`). -/
def childData : XmlNode → Except PyError String
  | XmlNode.elem _ (XmlNode.text d :: _) => Except.ok d
  | _ => Except.error PyError.attributeError

/-- Python `dict` assignment `d[k] = v` on an association list: replace in
place if the key is present, append otherwise. -/
def dictInsert (props : List (String × Option String)) (k : String) (v : Option String) :
    List (String × Option String) :=
  if props.any (fun p => p.1 == k) then
    props.map (fun p => if p.1 = k then (k, v) else p)
  else props ++ [(k, v)]

/-- The `try: value = ...firstChild.data / except AttributeError: value =
None` step of `_get_properties_from_xml`, applied to a `Value` element. -/
def valueFromEl (valueEl : XmlNode) : Option String :=
  match childData valueEl with
  | Except.ok d => some d
  | Except.error _ => none

/-- The loop of `_get_properties_from_xml` over the `Property` elements:
`name = ptag.getElementsByTagName('Name')[0].firstChild.data` (IndexError
when no `Name` element, AttributeError propagated when it has no text),
then the same for `Value` but with AttributeError caught and turned into
`None`, then `properties[name] = value`. -/
def propsLoop : List XmlNode → List (String × Option String) →
    Except PyError (List (String × Option String))
  | [], props => Except.ok props
  | ptag :: rest, props =>
    match getElementsByTagName "Name" ptag with
    | [] => Except.error PyError.indexError
    | nameEl :: _ =>
      match childData nameEl with
      | Except.error e => Except.error e
      | Except.ok name =>
        match getElementsByTagName "Value" ptag with
        | [] => Except.error PyError.indexError
        | valueEl :: _ =>
          propsLoop rest (dictInsert props name (valueFromEl valueEl))

/-- `_get_properties_from_xml` applied to an explicit XML string. -/
def get_properties_from_xml (xml : String) : Except PyError (List (String × Option String)) :=
  match minidomParse xml with
  | none => Except.error PyError.parseError
  | some doc => propsLoop (getElementsByTagName "Property" doc) []

/-- Concatenation of a list of strings (Python's repeated `+=`). -/
def strConcat : List String → String
  | [] => ""
  | s :: rest => s ++ strConcat rest

/-- One `<Property>` item as serialized by `_xml_from_properties`. -/
def propertyItemXml (name value : String) : String :=
  "<Property><Name>" ++ name ++ "</Name><Value>" ++ value ++ "</Value></Property>"

/-- `_xml_from_properties`: serialize a property mapping (association
list in the dict's iteration order) with no XML escaping. -/
def xml_from_properties (properties : List (String × String)) : String :=
  "<ArrayOfProperty xmlns=\"http://schemas.microsoft.com/HPCS2008R2/common\">"
  ++ strConcat (properties.map (fun p => propertyItemXml p.1 p.2))
  ++ "</ArrayOfProperty>"

/-- Python `s[:-1]`. -/
def pyDropLast (s : String) : String := String.mk s.data.dropLast

/-- `_requested_properties_to_string`: the loop appends `name + ","` and
then unconditionally drops the last character, inside the loop body. -/
def requested_properties_to_string (requested_properties : List String) : String :=
  requested_properties.foldl (fun url property_name => pyDropLast (url ++ property_name ++ ",")) ""

/-- `_get_string_from_response` applied to an explicit XML string:
`ElementTree.parse(...).getroot().text`. -/
def get_string_from_response (xml : String) : Except PyError (Option String) :=
  match minidomParse xml with
  | none => Except.error PyError.parseError
  | some root => Except.ok (etText root)

/-- HPC Pack API version strings (module-level constants). -/
def HPC_Pack_2012 : String := "2012-11-01.4.0"

/-- The minimum version required by `get_active_head_node`. -/
def HPC_Pack_2008_R2_SP4 : String := "2012-03-31.3.4"

/-- The default `api_version` of the client constructor. -/
def HPC_Pack_2008_R2_SP3 : String := "2011-11-01"

/-- Outcome of one HTTP exchange as seen by the client: a completed
exchange with a status code and a body, or a connection-level failure
with the exception's description. -/
inductive HttpOutcome where
  | completed (status : Nat) (body : String)
  | connError (desc : String)
deriving DecidableEq, Repr

/-- A transport oracle: the outcome of the n-th HTTP call attempted. -/
abbrev Transport := Nat → HttpOutcome

/-- The client object's fields (`WebAPI.__init__`), plus `calls`, a
counter of attempted HTTP exchanges used to observe that an operation
did or did not reach the network. -/
structure St where
  host : String
  port : Nat
  username : String
  password : String
  api_version : Option String
  hpc_cluster_name : Option String
  base_url : String
  response : Option String
  calls : Nat
deriving DecidableEq, Repr

/-- `WebAPI.request`: dispatch on the method name (anything but
post/get/put raises RuntimeError before the network is touched), then
perform the exchange, always storing the body (or the connection
failure's description) in `self.response`, and return `status == 200`. -/
def request (tr : Transport) (st : St) (method url : String) (data : Option String) :
    St × Except PyError Bool :=
  if method = "post" ∨ method = "get" ∨ method = "put" then
    match tr st.calls with
    | HttpOutcome.completed status body =>
      ({ st with response := some body, calls := st.calls + 1 }, Except.ok (status == 200))
    | HttpOutcome.connError desc =>
      ({ st with response := some desc, calls := st.calls + 1 }, Except.ok false)
  else
    (st, Except.error (PyError.runtimeError ("HTTP method " ++ method ++ " is not supported")))

/-- `WebAPI.post`. -/
def post (tr : Transport) (st : St) (url data : String) : St × Except PyError Bool :=
  request tr st "post" url (some data)

/-- `WebAPI.get`. -/
def get (tr : Transport) (st : St) (url : String) : St × Except PyError Bool :=
  request tr st "get" url none

/-- `WebAPI.put`. -/
def put (tr : Transport) (st : St) (url data : String) : St × Except PyError Bool :=
  request tr st "put" url (some data)

/-- `WebAPI.get_job`: GET `Job/{id}` with an optional
`?properties=` query string, `None` on transport failure, otherwise the
parsed property list of the response. -/
def get_job (tr : Transport) (st : St) (job_id : String)
    (requested_properties : Option (List String)) :
    St × Except PyError (Option (List (String × Option String))) :=
  let url := st.base_url ++ "Job/" ++ job_id ++
    (match requested_properties with
     | none => ""
     | some ps => "?properties=" ++ requested_properties_to_string ps)
  match get tr st url with
  | (st', Except.error e) => (st', Except.error e)
  | (st', Except.ok false) => (st', Except.ok none)
  | (st', Except.ok true) =>
    match st'.response with
    | none => (st', Except.error PyError.typeError)
    | some body =>
      match get_properties_from_xml body with
      | Except.error e => (st', Except.error e)
      | Except.ok props => (st', Except.ok (some props))

/-- `WebAPI.get_job_property`: `properties = self.get_job(job_id,
[property_name])`, then `len(properties)` (a `TypeError` when `get_job`
returned `None`), then `properties[property_name]` (a `KeyError` when
the key is absent from a non-empty result). -/
def get_job_property (tr : Transport) (st : St) (job_id property_name : String) :
    St × Except PyError (Option String) :=
  match get_job tr st job_id (some [property_name]) with
  | (st', Except.error e) => (st', Except.error e)
  | (st', Except.ok none) => (st', Except.error PyError.typeError)
  | (st', Except.ok (some properties)) =>
    if properties.length = 0 then (st', Except.ok none)
    else
      match properties.lookup property_name with
      | some v => (st', Except.ok v)
      | none => (st', Except.error PyError.keyError)

/-- `WebAPI.create_job`: POST the property XML to `/Jobs`, `None` on
transport failure, else the text of the response's root element. -/
def create_job (tr : Transport) (st : St) (properties : List (String × String)) :
    St × Except PyError (Option String) :=
  let url := st.base_url ++ "/Jobs"
  let xml := xml_from_properties properties
  match post tr st url xml with
  | (st', Except.error e) => (st', Except.error e)
  | (st', Except.ok false) => (st', Except.ok none)
  | (st', Except.ok true) =>
    match st'.response with
    | none => (st', Except.error PyError.typeError)
    | some body =>
      match get_string_from_response body with
      | Except.error e => (st', Except.error e)
      | Except.ok s => (st', Except.ok s)

/-- Lexicographic byte-wise string comparison, as Python 2 `<` compares
`str` values; `None` compares less than every string. -/
def pyStrLt : List Char → List Char → Bool
  | [], [] => false
  | [], _ :: _ => true
  | _ :: _, [] => false
  | a :: as, b :: bs =>
    if a.toNat < b.toNat then true
    else if b.toNat < a.toNat then false
    else pyStrLt as bs

/-- The guard `self.api_version < HPC_Pack_2008_R2_SP4` of
`get_active_head_node` (in Python 2, `None` is below every string). -/
def apiVersionBelowMin (v : Option String) : Bool :=
  match v with
  | none => true
  | some s => pyStrLt s.data HPC_Pack_2008_R2_SP4.data

/-- `WebAPI.get_active_head_node`: NotImplementedError when the
configured version is below the minimum, else GET `ActiveHeadnode`. -/
def get_active_head_node (tr : Transport) (st : St) : St × Except PyError (Option String) :=
  if apiVersionBelowMin st.api_version then
    (st, Except.error (PyError.notImplementedError
      ("Minimum api-version supported is " ++ HPC_Pack_2008_R2_SP4)))
  else
    let url := st.base_url ++ "ActiveHeadnode"
    match get tr st url with
    | (st', Except.error e) => (st', Except.error e)
    | (st', Except.ok false) => (st', Except.ok none)
    | (st', Except.ok true) =>
      match st'.response with
      | none => (st', Except.error PyError.typeError)
      | some body =>
        match get_string_from_response body with
        | Except.error e => (st', Except.error e)
        | Except.ok s => (st', Except.ok s)

/-- `WebAPI.set_job_properties`: RuntimeError when `api_version` is
`None`, else PUT the property XML to `Job/{id}`. -/
def set_job_properties (tr : Transport) (st : St) (job_id : String)
    (properties : List (String × String)) : St × Except PyError Bool :=
  match st.api_version with
  | none =>
    (st, Except.error (PyError.runtimeError
      ("Minimum supported api-version: " ++ HPC_Pack_2008_R2_SP3)))
  | some _ =>
    let url := st.base_url ++ "Job/" ++ job_id
    let xml := xml_from_properties properties
    put tr st url xml

/-- `ElementTree` indexing `node[i]`: the i-th element child, or
IndexError. -/
def elemChildAt (n : XmlNode) (i : Nat) : Except PyError XmlNode :=
  match (elemChildren n).get? i with
  | some c => Except.ok c
  | none => Except.error PyError.indexError

/-- The parsing part of `get_clusters`:
`for clusters_in_xml in root[0][0]: clusters.append(clusters_in_xml[1].text)`. -/
def clusterNamesFromRoot (root : XmlNode) : Except PyError (List (Option String)) :=
  match elemChildAt root 0 with
  | Except.error e => Except.error e
  | Except.ok r0 =>
    match elemChildAt r0 0 with
    | Except.error e => Except.error e
    | Except.ok r00 =>
      (elemChildren r00).mapM (fun c =>
        match elemChildAt c 1 with
        | Except.error e => Except.error e
        | Except.ok c1 => Except.ok (etText c1))

/-- `WebAPI.get_clusters`: GET `https://host:port/WindowsHPC/Clusters`,
`None` on transport failure, else the cluster-name leaves of the
response document in document order. -/
def get_clusters (tr : Transport) (st : St) :
    St × Except PyError (Option (List (Option String))) :=
  let url := "https://" ++ st.host ++ ":" ++ toString st.port ++ "/WindowsHPC/Clusters"
  match get tr st url with
  | (st', Except.error e) => (st', Except.error e)
  | (st', Except.ok false) => (st', Except.ok none)
  | (st', Except.ok true) =>
    match st'.response with
    | none => (st', Except.error PyError.typeError)
    | some body =>
      match minidomParse body with
      | none => (st', Except.error PyError.parseError)
      | some root =>
        match clusterNamesFromRoot root with
        | Except.error e => (st', Except.error e)
        | Except.ok cs => (st', Except.ok (some cs))

/-- Python string interpolation of a value that may be `None`. -/
def pyStrOfOptString : Option String → String
  | some s => s
  | none => "None"

/-- The `base_url` format string of `WebAPI.__init__`. -/
def mkBaseUrl (host : String) (port : Nat) (cluster : Option String) : String :=
  "https://" ++ host ++ ":" ++ toString port ++ "/WindowsHPC/" ++ pyStrOfOptString cluster ++ "/"

/-- `WebAPI.__init__`: store the configuration; when no cluster name is
given, discover the clusters and take the first one (or `None` when the
discovery call fails or returns an empty list); then build `base_url`. -/
def webAPIInit (tr : Transport) (host username password : String) (port : Nat)
    (hpc_cluster_name : Option String) (api_version : Option String) : Except PyError St :=
  let st0 : St := {
    host := host, port := port, username := username, password := password,
    api_version := api_version, hpc_cluster_name := none, base_url := "",
    response := none, calls := 0 }
  match hpc_cluster_name with
  | some name =>
    let st1 := { st0 with hpc_cluster_name := some name }
    Except.ok { st1 with base_url := mkBaseUrl host port (some name) }
  | none =>
    match get_clusters tr st0 with
    | (_, Except.error e) => Except.error e
    | (st1, Except.ok clustersOpt) =>
      let name : Option String :=
        match clustersOpt with
        | none => none
        | some [] => none
        | some (c :: _) => c
      let st2 := { st1 with hpc_cluster_name := name }
      Except.ok { st2 with base_url := mkBaseUrl host port name }

/-! ### Generators and token/tree views used by the round-trip proofs -/

/-- The text character data a string serializes to: no node when empty. -/
def txtNodes (s : String) : List XmlNode :=
  if s.data.isEmpty then [] else [XmlNode.text s]

/-- The parsed tree of one serialized `<Property>` item. -/
def propNode (name value : String) : XmlNode :=
  XmlNode.elem "Property"
    [XmlNode.elem "Name" (txtNodes name), XmlNode.elem "Value" (txtNodes value)]

/-- A property entry with an optional value, serialized the way
`_xml_from_properties` serializes (an absent value prints as nothing
here; the builder itself only takes string values). -/
def propListXml (entries : List (String × Option String)) : String :=
  "<ArrayOfProperty xmlns=\"http://schemas.microsoft.com/HPCS2008R2/common\">"
  ++ strConcat (entries.map (fun e => propertyItemXml e.1 (e.2.getD "")))
  ++ "</ArrayOfProperty>"

/-- Token stream of one serialized `<Property>` item. -/
def chunkToks (k v : String) : List Tok :=
  [Tok.openTag "Property", Tok.openTag "Name"] ++ txtToksOf k.data
  ++ [Tok.closeTag "Name", Tok.openTag "Value"] ++ txtToksOf v.data
  ++ [Tok.closeTag "Value", Tok.closeTag "Property"]

/-- Tree of one entry with optional value. -/
def propNodeE (e : String × Option String) : XmlNode := propNode e.1 (e.2.getD "")

/-- Token stream of one entry with optional value. -/
def chunkToksE (e : String × Option String) : List Tok := chunkToks e.1 (e.2.getD "")

/-- Token stream of a list of entries. -/
def toksOfEntries : List (String × Option String) → List Tok
  | [] => []
  | e :: es => chunkToksE e ++ toksOfEntries es

/-- Text that is safe inside an element of this wire format: no markup
start and no entity reference. -/
def goodTxt (s : String) : Prop := ∀ c ∈ s.data, c ≠ '<' ∧ c ≠ '&'

instance (s : String) : Decidable (goodTxt s) := by
  unfold goodTxt; infer_instance

/-- The value a serialized entry comes back as: an empty string collapses
to `None` because `<Value></Value>` has no text child. -/
def normVal : Option String → Option String
  | none => none
  | some s => if s.data.isEmpty then none else some s


/-! ### Cluster-discovery documents -/

/-- One entry of a cluster-discovery document: the wire shape
`get_clusters` consumes has entries whose second element child carries
the cluster name as text. -/
def clusterEntryXml (name : String) : String :=
  "<E><X></X><Y>" ++ name ++ "</Y></E>"

/-- A cluster-discovery document with the given leaf names, of the
nesting `root[0][0]` that `get_clusters` navigates. -/
def clustersXml (names : List String) : String :=
  "<Clusters><A><B>" ++ strConcat (names.map clusterEntryXml) ++ "</B></A></Clusters>"

/-- Parsed tree of one discovery entry. -/
def entryNode (name : String) : XmlNode :=
  XmlNode.elem "E" [XmlNode.elem "X" [], XmlNode.elem "Y" (txtNodes name)]

/-- Token stream of one discovery entry. -/
def entryToks (name : String) : List Tok :=
  [Tok.openTag "E", Tok.openTag "X", Tok.closeTag "X", Tok.openTag "Y"] ++ txtToksOf name.data
  ++ [Tok.closeTag "Y", Tok.closeTag "E"]

/-- Token stream of a list of discovery entries. -/
def toksOfNames : List String → List Tok
  | [] => []
  | n :: ns => entryToks n ++ toksOfNames ns

/-- The tree a generated discovery document parses to. -/
def clustersTree (names : List String) : XmlNode :=
  XmlNode.elem "Clusters" [XmlNode.elem "A" [XmlNode.elem "B" (names.map entryNode)]]

/-! ### Example fixtures -/

/-- A concretely configured client state (after construction with an
explicit cluster name). -/
def exSt : St :=
  { host := "example.com", port := 443, username := "u", password := "p",
    api_version := some HPC_Pack_2008_R2_SP3, hpc_cluster_name := some "HEADNODE",
    base_url := "https://example.com:443/WindowsHPC/HEADNODE/", response := none, calls := 0 }

/-- A transport that always completes with HTTP 500. -/
def failTr : Transport := fun _ => HttpOutcome.completed 500 "Internal Server Error"

/-- A transport that always fails at the connection level. -/
def connTr : Transport := fun _ => HttpOutcome.connError "connection refused"

/-- A property document whose single `Property` has no `Name` child. -/
def missingNameXml : String :=
  "<ArrayOfProperty><Property><Value>x</Value></Property></ArrayOfProperty>"

/-! ### Tokenizer lemmas -/

theorem string_mk_data (s : String) : String.mk s.data = s := by
  cases s; rfl

theorem foldl_tokStep_none (cs : List Char) : List.foldl tokStep none cs = none := by
  induction cs with
  | nil => rfl
  | cons c cs ih => simpa [List.foldl, tokStep] using ih

theorem tokStep_shift (m : TokMode) (toks pre : List Tok) (c : Char) :
    tokStep (some (m, pre ++ toks)) c =
      Option.map (fun p => (p.1, pre ++ p.2)) (tokStep (some (m, toks)) c) := by
  cases m <;> simp only [tokStep] <;> split_ifs <;> simp [List.append_assoc]

theorem foldl_tokStep_shift (cs : List Char) : ∀ (m : TokMode) (toks pre : List Tok),
    List.foldl tokStep (some (m, pre ++ toks)) cs =
      Option.map (fun p => (p.1, pre ++ p.2)) (List.foldl tokStep (some (m, toks)) cs) := by
  induction cs with
  | nil => intro m toks pre; rfl
  | cons c cs ih =>
    intro m toks pre
    rw [List.foldl_cons, List.foldl_cons, tokStep_shift]
    cases h : tokStep (some (m, toks)) c with
    | none => simp [foldl_tokStep_none]
    | some p =>
      obtain ⟨m', toks'⟩ := p
      simpa using ih m' toks' pre

theorem foldl_tokStep_from (cs : List Char) (m : TokMode) (pre : List Tok) :
    List.foldl tokStep (some (m, pre)) cs =
      Option.map (fun p => (p.1, pre ++ p.2)) (List.foldl tokStep (some (m, [])) cs) := by
  simpa using foldl_tokStep_shift cs m [] pre

theorem foldl_tokStep_text (t : List Char) : ∀ (buf : List Char) (toks : List Tok),
    (∀ c ∈ t, c ≠ '<') →
    List.foldl tokStep (some (TokMode.text buf, toks)) t =
      some (TokMode.text (buf ++ t), toks) := by
  induction t with
  | nil => intro buf toks _; simp
  | cons c t ih =>
    intro buf toks h
    have hc : c ≠ '<' := h c (List.mem_cons_self c t)
    rw [List.foldl_cons]
    have hstep : tokStep (some (TokMode.text buf, toks)) c =
        some (TokMode.text (buf ++ [c]), toks) := by
      simp [tokStep, hc]
    rw [hstep, ih (buf ++ [c]) toks (fun x hx => h x (List.mem_cons_of_mem _ hx))]
    simp

theorem foldl_tokStep_lt_cons (buf : List Char) (toks : List Tok) (rest : List Char) :
    List.foldl tokStep (some (TokMode.text buf, toks)) ('<' :: rest) =
      List.foldl tokStep (some (TokMode.tagStart, toks ++ txtToksOf buf)) rest := by
  rw [List.foldl_cons]
  simp [tokStep]

theorem chunk_fold (k v : String) (toks : List Tok)
    (hk : ∀ c ∈ k.data, c ≠ '<') (hv : ∀ c ∈ v.data, c ≠ '<') :
    List.foldl tokStep (some (TokMode.text [], toks)) (propertyItemXml k v).data =
      some (TokMode.text [], toks ++ chunkToks k v) := by
  have hdata : (propertyItemXml k v).data =
      ("<Property><Name>" : String).data ++ (k.data ++
        ('<' :: (("/Name><Value>" : String).data ++ (v.data ++
          ('<' :: ("/Value></Property>" : String).data))))) := by
    simp [propertyItemXml, String.data_append]
  rw [hdata, List.foldl_append]
  rw [foldl_tokStep_from ("<Property><Name>" : String).data (TokMode.text []) toks]
  have hA : List.foldl tokStep (some (TokMode.text [], []))
      ("<Property><Name>" : String).data =
      some (TokMode.text [], [Tok.openTag "Property", Tok.openTag "Name"]) := by rfl
  rw [hA]
  simp only [Option.map]
  rw [List.foldl_append, foldl_tokStep_text k.data [] _ hk]
  simp only [List.nil_append]
  rw [foldl_tokStep_lt_cons]
  rw [List.foldl_append]
  rw [foldl_tokStep_from ("/Name><Value>" : String).data TokMode.tagStart]
  have hB : List.foldl tokStep (some (TokMode.tagStart, []))
      ("/Name><Value>" : String).data =
      some (TokMode.text [], [Tok.closeTag "Name", Tok.openTag "Value"]) := by rfl
  rw [hB]
  simp only [Option.map]
  rw [List.foldl_append, foldl_tokStep_text v.data [] _ hv]
  simp only [List.nil_append]
  rw [foldl_tokStep_lt_cons]
  rw [foldl_tokStep_from ("/Value></Property>" : String).data TokMode.tagStart]
  have hC : List.foldl tokStep (some (TokMode.tagStart, []))
      ("/Value></Property>" : String).data =
      some (TokMode.text [], [Tok.closeTag "Value", Tok.closeTag "Property"]) := by rfl
  rw [hC]
  simp [chunkToks, List.append_assoc]

theorem fold_entries_toks (entries : List (String × Option String)) :
    ∀ toks : List Tok,
    (∀ e ∈ entries, (∀ c ∈ e.1.data, c ≠ '<') ∧ ∀ c ∈ (e.2.getD "").data, c ≠ '<') →
    List.foldl tokStep (some (TokMode.text [], toks))
      (strConcat (entries.map (fun e => propertyItemXml e.1 (e.2.getD "")))).data =
      some (TokMode.text [], toks ++ toksOfEntries entries) := by
  induction entries with
  | nil => intro toks _; simp [strConcat, toksOfEntries]
  | cons e es ih =>
    intro toks h
    have he := h e (List.mem_cons_self e es)
    rw [List.map_cons, strConcat, String.data_append, List.foldl_append]
    rw [chunk_fold e.1 (e.2.getD "") toks he.1 he.2]
    rw [ih (toks ++ chunkToks e.1 (e.2.getD ""))
      (fun x hx => h x (List.mem_cons_of_mem _ hx))]
    simp [toksOfEntries, chunkToksE, List.append_assoc]

theorem tokenize_propListXml (entries : List (String × Option String))
    (h : ∀ e ∈ entries, (∀ c ∈ e.1.data, c ≠ '<') ∧ ∀ c ∈ (e.2.getD "").data, c ≠ '<') :
    tokenize (propListXml entries) =
      some (Tok.openTag "ArrayOfProperty" ::
        (toksOfEntries entries ++ [Tok.closeTag "ArrayOfProperty"])) := by
  unfold tokenize propListXml
  rw [String.data_append, String.data_append, List.foldl_append, List.foldl_append]
  have hH : List.foldl tokStep (some (TokMode.text [], []))
      ("<ArrayOfProperty xmlns=\"http://schemas.microsoft.com/HPCS2008R2/common\">" : String).data =
      some (TokMode.text [], [Tok.openTag "ArrayOfProperty"]) := by rfl
  rw [hH]
  rw [fold_entries_toks entries [Tok.openTag "ArrayOfProperty"] h]
  have hT : ("</ArrayOfProperty>" : String).data =
      '<' :: ("/ArrayOfProperty>" : String).data := rfl
  rw [hT, foldl_tokStep_lt_cons]
  rw [foldl_tokStep_from]
  have hC : List.foldl tokStep (some (TokMode.tagStart, []))
      ("/ArrayOfProperty>" : String).data =
      some (TokMode.text [], [Tok.closeTag "ArrayOfProperty"]) := by rfl
  rw [hC]
  simp [txtToksOf]

/-! ### Tree-builder lemmas -/

theorem txtToksOf_data (s : String) :
    txtToksOf s.data = if s.data.isEmpty then [] else [Tok.textTok s] := by
  unfold txtToksOf
  split_ifs with h <;> simp [string_mk_data]

theorem treeFold_chunk (k v : String) (t0 : String) (cs0 : List XmlNode)
    (rest : List (String × List XmlNode)) :
    List.foldl treeStep (some ((t0, cs0) :: rest, none)) (chunkToks k v) =
      some ((t0, cs0 ++ [propNode k v]) :: rest, none) := by
  by_cases hk : k.data.isEmpty <;> by_cases hv : v.data.isEmpty <;>
    simp [chunkToks, txtToksOf_data, txtNodes, propNode, hk, hv, List.foldl, treeStep]

theorem treeFold_entries (entries : List (String × Option String)) :
    ∀ (t0 : String) (cs0 : List XmlNode) (rest : List (String × List XmlNode)),
    List.foldl treeStep (some ((t0, cs0) :: rest, none)) (toksOfEntries entries) =
      some ((t0, cs0 ++ entries.map propNodeE) :: rest, none) := by
  induction entries with
  | nil => intro t0 cs0 rest; simp [toksOfEntries]
  | cons e es ih =>
    intro t0 cs0 rest
    rw [toksOfEntries, List.foldl_append]
    rw [show chunkToksE e = chunkToks e.1 (e.2.getD "") from rfl, treeFold_chunk]
    rw [ih]
    simp [propNodeE, List.append_assoc]

theorem minidomParse_eq_of_tokenize (s : String) (toks : List Tok)
    (htok : tokenize s = some toks) :
    minidomParse s =
      (match List.foldl treeStep (some ([], none)) toks with
       | some ([], some root) => some root
       | _ => none) := by
  unfold minidomParse
  rw [htok]

theorem minidomParse_propListXml (entries : List (String × Option String))
    (h : ∀ e ∈ entries, (∀ c ∈ e.1.data, c ≠ '<') ∧ ∀ c ∈ (e.2.getD "").data, c ≠ '<') :
    minidomParse (propListXml entries) =
      some (XmlNode.elem "ArrayOfProperty" (entries.map propNodeE)) := by
  rw [minidomParse_eq_of_tokenize _ _ (tokenize_propListXml entries h)]
  rw [List.foldl_cons]
  have h1 : treeStep (some ([], none)) (Tok.openTag "ArrayOfProperty") =
      some ([("ArrayOfProperty", [])], none) := rfl
  rw [h1, List.foldl_append, treeFold_entries]
  simp [treeStep]

/-! ### Extraction lemmas: `propsLoop` over generated property trees -/

theorem gebtnList_txtNodes (tag s : String) :
    getElementsByTagNameList tag (txtNodes s) = [] := by
  unfold txtNodes
  split_ifs <;> simp [getElementsByTagNameList, getElementsByTagName]

theorem gebtn_propNode (tag k v : String) :
    getElementsByTagName tag (propNode k v) =
      (if "Property" = tag then [propNode k v] else []) ++
      (if "Name" = tag then [XmlNode.elem "Name" (txtNodes k)] else []) ++
      (if "Value" = tag then [XmlNode.elem "Value" (txtNodes v)] else []) := by
  simp only [propNode, getElementsByTagName, getElementsByTagNameList, gebtnList_txtNodes]
  simp [List.append_assoc]

theorem childData_txtNodes (t s : String) :
    childData (XmlNode.elem t (txtNodes s)) =
      if s.data.isEmpty then Except.error PyError.attributeError else Except.ok s := by
  unfold txtNodes
  split_ifs <;> simp [childData]

theorem valueFromEl_txtNodes (v : Option String) :
    valueFromEl (XmlNode.elem "Value" (txtNodes (v.getD ""))) = normVal v := by
  cases v with
  | none => simp [valueFromEl, childData_txtNodes, normVal]
  | some s =>
    by_cases h : s.data.isEmpty <;> simp [valueFromEl, childData_txtNodes, normVal, h]

theorem dictInsert_fresh (props : List (String × Option String)) (k : String)
    (v : Option String) (h : ∀ a ∈ props, a.1 ≠ k) :
    dictInsert props k v = props ++ [(k, v)] := by
  have hany : ¬ (props.any (fun p => p.1 == k) = true) := by
    simp only [List.any_eq_true, beq_iff_eq]
    rintro ⟨p, hp, he⟩
    exact h p hp he
  simp [dictInsert, hany]

theorem propsLoop_propNodes (entries : List (String × Option String)) :
    ∀ acc : List (String × Option String),
    (∀ e ∈ entries, ¬e.1.data.isEmpty) →
    (entries.map Prod.fst).Nodup →
    (∀ e ∈ entries, ∀ a ∈ acc, a.1 ≠ e.1) →
    propsLoop (entries.map propNodeE) acc =
      Except.ok (acc ++ entries.map (fun e => (e.1, normVal e.2))) := by
  induction entries with
  | nil => intro acc _ _ _; simp [propsLoop]
  | cons e es ih =>
    intro acc hne hnd hdis
    have hkdata : ¬e.1.data.isEmpty := hne e (List.mem_cons_self e es)
    have hname : getElementsByTagName "Name" (propNodeE e) =
        [XmlNode.elem "Name" (txtNodes e.1)] := by
      rw [show propNodeE e = propNode e.1 (e.2.getD "") from rfl, gebtn_propNode]
      simp
    have hvalue : getElementsByTagName "Value" (propNodeE e) =
        [XmlNode.elem "Value" (txtNodes (e.2.getD ""))] := by
      rw [show propNodeE e = propNode e.1 (e.2.getD "") from rfl, gebtn_propNode]
      simp
    rw [List.map_cons, propsLoop, hname, hvalue]
    simp only [childData_txtNodes, if_neg hkdata, valueFromEl_txtNodes]
    rw [dictInsert_fresh acc e.1 (normVal e.2)
      (fun a ha => hdis e (List.mem_cons_self e es) a ha)]
    rw [ih (acc ++ [(e.1, normVal e.2)])
      (fun x hx => hne x (List.mem_cons_of_mem _ hx))
      (by simpa using (List.nodup_cons.mp (by simpa using hnd)).2)
      ?_]
    · simp [List.append_assoc]
    · intro x hx a ha
      rcases List.mem_append.mp ha with hacc | hsing
      · exact hdis x (List.mem_cons_of_mem _ hx) a hacc
      · have : a = (e.1, normVal e.2) := by simpa using hsing
        subst this
        have he1 : e.1 ∉ es.map Prod.fst := (List.nodup_cons.mp (by simpa using hnd)).1
        intro hcontra
        exact he1 (hcontra ▸ List.mem_map_of_mem Prod.fst hx)

theorem gebtnList_map_propNodeE (entries : List (String × Option String)) :
    getElementsByTagNameList "Property" (entries.map propNodeE) = entries.map propNodeE := by
  induction entries with
  | nil => simp [getElementsByTagNameList]
  | cons e es ih =>
    rw [List.map_cons, getElementsByTagNameList,
      show propNodeE e = propNode e.1 (e.2.getD "") from rfl, gebtn_propNode, ih]
    simp [propNodeE]

/-- Parsing the document generated from `entries` yields each entry's
name mapped to its value, with empty values collapsing to `None`. -/
theorem get_properties_from_xml_propListXml (entries : List (String × Option String))
    (hgood : ∀ e ∈ entries, goodTxt e.1 ∧ goodTxt (e.2.getD ""))
    (hne : ∀ e ∈ entries, ¬e.1.data.isEmpty)
    (hnd : (entries.map Prod.fst).Nodup) :
    get_properties_from_xml (propListXml entries) =
      Except.ok (entries.map (fun e => (e.1, normVal e.2))) := by
  unfold get_properties_from_xml
  have h' : ∀ e ∈ entries,
      (∀ c ∈ e.1.data, c ≠ '<') ∧ ∀ c ∈ (e.2.getD "").data, c ≠ '<' := by
    intro e he
    exact ⟨fun c hc => ((hgood e he).1 c hc).1, fun c hc => ((hgood e he).2 c hc).1⟩
  rw [minidomParse_propListXml entries h']
  have hroot : getElementsByTagName "Property"
      (XmlNode.elem "ArrayOfProperty" (entries.map propNodeE)) = entries.map propNodeE := by
    rw [getElementsByTagName, gebtnList_map_propNodeE]
    simp
  simp only [hroot]
  rw [propsLoop_propNodes entries [] hne hnd (by simp)]
  simp

theorem xml_from_properties_eq_propListXml (props : List (String × String)) :
    xml_from_properties props = propListXml (props.map (fun p => (p.1, some p.2))) := by
  unfold xml_from_properties propListXml
  simp [List.map_map, Function.comp_def]

/-- Round trip of `_xml_from_properties` and `_get_properties_from_xml`
on safe names: every value comes back, empty ones as `None`. -/
theorem roundtrip_general (props : List (String × String))
    (hgood : ∀ p ∈ props, goodTxt p.1 ∧ goodTxt p.2)
    (hne : ∀ p ∈ props, ¬p.1.data.isEmpty)
    (hnd : (props.map Prod.fst).Nodup) :
    get_properties_from_xml (xml_from_properties props) =
      Except.ok (props.map (fun p => (p.1, normVal (some p.2)))) := by
  rw [xml_from_properties_eq_propListXml]
  rw [get_properties_from_xml_propListXml (props.map (fun p => (p.1, some p.2)))
    ?_ ?_ ?_]
  · simp [List.map_map, Function.comp]
  · intro e he
    obtain ⟨p, hp, rfl⟩ := List.mem_map.mp he
    simpa using hgood p hp
  · intro e he
    obtain ⟨p, hp, rfl⟩ := List.mem_map.mp he
    simpa using hne p hp
  · simpa [List.map_map, Function.comp] using hnd

theorem entry_fold (name : String) (toks : List Tok) (h : ∀ c ∈ name.data, c ≠ '<') :
    List.foldl tokStep (some (TokMode.text [], toks)) (clusterEntryXml name).data =
      some (TokMode.text [], toks ++ entryToks name) := by
  have hdata : (clusterEntryXml name).data =
      ("<E><X></X><Y>" : String).data ++ (name.data ++ ('<' :: ("/Y></E>" : String).data)) := by
    simp [clusterEntryXml, String.data_append]
  rw [hdata, List.foldl_append]
  rw [foldl_tokStep_from _ _ toks]
  have hA : List.foldl tokStep (some (TokMode.text [], [])) ("<E><X></X><Y>" : String).data =
      some (TokMode.text [],
        [Tok.openTag "E", Tok.openTag "X", Tok.closeTag "X", Tok.openTag "Y"]) := by rfl
  rw [hA]
  simp only [Option.map]
  rw [List.foldl_append, foldl_tokStep_text name.data [] _ h]
  simp only [List.nil_append]
  rw [foldl_tokStep_lt_cons]
  rw [foldl_tokStep_from ("/Y></E>" : String).data TokMode.tagStart]
  have hB : List.foldl tokStep (some (TokMode.tagStart, [])) ("/Y></E>" : String).data =
      some (TokMode.text [], [Tok.closeTag "Y", Tok.closeTag "E"]) := by rfl
  rw [hB]
  simp [entryToks, List.append_assoc]

theorem fold_names_toks (names : List String) : ∀ toks : List Tok,
    (∀ n ∈ names, ∀ c ∈ n.data, c ≠ '<') →
    List.foldl tokStep (some (TokMode.text [], toks))
      (strConcat (names.map clusterEntryXml)).data =
      some (TokMode.text [], toks ++ toksOfNames names) := by
  induction names with
  | nil => intro toks _; simp [strConcat, toksOfNames]
  | cons n ns ih =>
    intro toks h
    rw [List.map_cons, strConcat, String.data_append, List.foldl_append]
    rw [entry_fold n toks (h n (List.mem_cons_self n ns))]
    rw [ih (toks ++ entryToks n) (fun x hx => h x (List.mem_cons_of_mem _ hx))]
    simp [toksOfNames, List.append_assoc]

theorem tokenize_clustersXml (names : List String)
    (h : ∀ n ∈ names, ∀ c ∈ n.data, c ≠ '<') :
    tokenize (clustersXml names) =
      some (Tok.openTag "Clusters" :: Tok.openTag "A" :: Tok.openTag "B" ::
        (toksOfNames names ++
          [Tok.closeTag "B", Tok.closeTag "A", Tok.closeTag "Clusters"])) := by
  unfold tokenize clustersXml
  rw [String.data_append, String.data_append, List.foldl_append, List.foldl_append]
  have hH : List.foldl tokStep (some (TokMode.text [], []))
      ("<Clusters><A><B>" : String).data =
      some (TokMode.text [], [Tok.openTag "Clusters", Tok.openTag "A", Tok.openTag "B"]) := by rfl
  rw [hH]
  rw [fold_names_toks names [Tok.openTag "Clusters", Tok.openTag "A", Tok.openTag "B"] h]
  have hT : ("</B></A></Clusters>" : String).data =
      '<' :: ("/B></A></Clusters>" : String).data := rfl
  rw [hT, foldl_tokStep_lt_cons]
  rw [foldl_tokStep_from]
  have hC : List.foldl tokStep (some (TokMode.tagStart, []))
      ("/B></A></Clusters>" : String).data =
      some (TokMode.text [],
        [Tok.closeTag "B", Tok.closeTag "A", Tok.closeTag "Clusters"]) := by rfl
  rw [hC]
  simp [txtToksOf]

theorem treeFold_entry (name t0 : String) (cs0 : List XmlNode)
    (rest : List (String × List XmlNode)) :
    List.foldl treeStep (some ((t0, cs0) :: rest, none)) (entryToks name) =
      some ((t0, cs0 ++ [entryNode name]) :: rest, none) := by
  by_cases h : name.data.isEmpty <;>
    simp [entryToks, txtToksOf_data, entryNode, txtNodes, h, List.foldl, treeStep]

theorem treeFold_names (names : List String) :
    ∀ (t0 : String) (cs0 : List XmlNode) (rest : List (String × List XmlNode)),
    List.foldl treeStep (some ((t0, cs0) :: rest, none)) (toksOfNames names) =
      some ((t0, cs0 ++ names.map entryNode) :: rest, none) := by
  induction names with
  | nil => intro t0 cs0 rest; simp [toksOfNames]
  | cons n ns ih =>
    intro t0 cs0 rest
    rw [toksOfNames, List.foldl_append, treeFold_entry, ih]
    simp [List.append_assoc]

theorem minidomParse_clustersXml (names : List String)
    (h : ∀ n ∈ names, ∀ c ∈ n.data, c ≠ '<') :
    minidomParse (clustersXml names) = some (clustersTree names) := by
  rw [minidomParse_eq_of_tokenize _ _ (tokenize_clustersXml names h)]
  rw [List.foldl_cons, List.foldl_cons, List.foldl_cons]
  have h3 : treeStep (treeStep (treeStep (some ([], none)) (Tok.openTag "Clusters"))
      (Tok.openTag "A")) (Tok.openTag "B") =
      some ([("B", []), ("A", []), ("Clusters", [])], none) := rfl
  rw [h3, List.foldl_append, treeFold_names]
  simp [treeStep, clustersTree, List.foldl]

theorem etText_txtNodes (t s : String) :
    etText (XmlNode.elem t (txtNodes s)) =
      if s.data.isEmpty then none else some s := by
  unfold txtNodes
  split_ifs <;> simp [etText]

theorem mapM_entryNodes (names : List String) (hne : ∀ n ∈ names, ¬n.data.isEmpty) :
    (names.map entryNode).mapM (fun c =>
      match elemChildAt c 1 with
      | Except.error e => Except.error e
      | Except.ok c1 => Except.ok (etText c1)) = Except.ok (names.map some) := by
  induction names with
  | nil => rfl
  | cons n ns ih =>
    have hn : ¬n.data.isEmpty := hne n (List.mem_cons_self n ns)
    rw [List.map_cons, List.map_cons, List.mapM_cons]
    have hentry : elemChildAt (entryNode n) 1 =
        Except.ok (XmlNode.elem "Y" (txtNodes n)) := rfl
    simp only [hentry, etText_txtNodes, if_neg hn]
    rw [ih (fun x hx => hne x (List.mem_cons_of_mem _ hx))]
    rfl

theorem clusterNames_of_tree (names : List String)
    (hne : ∀ n ∈ names, ¬n.data.isEmpty) :
    clusterNamesFromRoot (clustersTree names) = Except.ok (names.map some) := by
  unfold clusterNamesFromRoot clustersTree
  have h0 : elemChildAt (XmlNode.elem "Clusters"
      [XmlNode.elem "A" [XmlNode.elem "B" (names.map entryNode)]]) 0 =
      Except.ok (XmlNode.elem "A" [XmlNode.elem "B" (names.map entryNode)]) := rfl
  simp only [h0]
  have h1 : elemChildAt (XmlNode.elem "A" [XmlNode.elem "B" (names.map entryNode)]) 0 =
      Except.ok (XmlNode.elem "B" (names.map entryNode)) := rfl
  simp only [h1]
  have h2 : elemChildren (XmlNode.elem "B" (names.map entryNode)) = names.map entryNode := by
    show List.filter isElem (names.map entryNode) = names.map entryNode
    exact List.filter_eq_self.mpr (fun a ha => by
      obtain ⟨n, _, rfl⟩ := List.mem_map.mp ha
      rfl)
  simp only [h2]
  exact mapM_entryNodes names hne

theorem get_clusters_of_doc (names : List String) (st : St)
    (h : ∀ n ∈ names, goodTxt n ∧ ¬n.data.isEmpty) :
    get_clusters (fun _ => HttpOutcome.completed 200 (clustersXml names)) st =
      ({ st with response := some (clustersXml names), calls := st.calls + 1 },
       Except.ok (some (names.map some))) := by
  have hlt : ∀ n ∈ names, ∀ c ∈ n.data, c ≠ '<' :=
    fun n hn c hc => ((h n hn).1 c hc).1
  have hne : ∀ n ∈ names, ¬n.data.isEmpty := fun n hn => (h n hn).2
  have hget : get (fun _ => HttpOutcome.completed 200 (clustersXml names)) st
      ("https://" ++ st.host ++ ":" ++ toString st.port ++ "/WindowsHPC/Clusters") =
      ({ st with response := some (clustersXml names), calls := st.calls + 1 },
       Except.ok true) := rfl
  unfold get_clusters
  simp only [hget, minidomParse_clustersXml names hlt, clusterNames_of_tree names hne]

theorem webAPIInit_of_doc (names : List String)
    (h : ∀ n ∈ names, goodTxt n ∧ ¬n.data.isEmpty)
    (host username password : String) (port : Nat) (api_version : Option String) :
    webAPIInit (fun _ => HttpOutcome.completed 200 (clustersXml names))
        host username password port none api_version =
      Except.ok {
        host := host, port := port, username := username, password := password,
        api_version := api_version, hpc_cluster_name := names.head?,
        base_url := mkBaseUrl host port names.head?,
        response := some (clustersXml names), calls := 1 } := by
  unfold webAPIInit
  simp only [get_clusters_of_doc names _ h]
  cases names with
  | nil => rfl
  | cons n ns => rfl

/-! ### Helper lemmas for the query-string join -/

theorem string_data_ext (s t : String) (h : s.data = t.data) : s = t := by
  cases s
  cases t
  exact congrArg String.mk h

theorem pyDropLast_comma (s : String) : pyDropLast (s ++ ",") = s := by
  apply string_data_ext
  simp [pyDropLast, String.data_append]

theorem rpts_foldl (l : List String) : ∀ acc : String,
    List.foldl (fun url property_name => pyDropLast (url ++ property_name ++ ",")) acc l =
      acc ++ strConcat l := by
  induction l with
  | nil =>
    intro acc
    apply string_data_ext
    simp [strConcat, String.data_append]
  | cons s rest ih =>
    intro acc
    rw [List.foldl_cons, pyDropLast_comma (acc ++ s), ih, strConcat]
    apply string_data_ext
    simp [String.data_append]

theorem requested_properties_to_string_eq (l : List String) :
    requested_properties_to_string l = strConcat l := by
  unfold requested_properties_to_string
  rw [rpts_foldl l ""]
  apply string_data_ext
  simp [String.data_append]

theorem lookup_map_of_nodup (props : List (String × String)) (k v : String)
    (f : String → Option String)
    (hnd : (props.map Prod.fst).Nodup) (hmem : (k, v) ∈ props) :
    (props.map (fun p => (p.1, f p.2))).lookup k = some (f v) := by
  induction props with
  | nil => cases hmem
  | cons p ps ih =>
    rw [List.map_cons, List.nodup_cons] at hnd
    rw [List.map_cons, List.lookup_cons]
    cases hbeq : (k == p.1) with
    | true =>
      have hk : p.1 = k := (beq_iff_eq.mp hbeq).symm
      rcases List.mem_cons.mp hmem with heq | hmem'
      · simp [← heq]
      · exfalso
        exact hnd.1 (hk ▸ List.mem_map.mpr ⟨(k, v), hmem', rfl⟩)
    | false =>
      rcases List.mem_cons.mp hmem with heq | hmem'
      · exfalso
        have hp1 : p.1 = k := by rw [← heq]
        simp [hp1] at hbeq
      · exact ih hnd.2 hmem'

/-! ### The claims -/

/-- C1 (corrected, counterexample): the claim says the helper returns the
comma-joined names with the final character dropped, so
`["Name", "State"]` would give `"Name,Stat"`; in fact the truncation
happens inside the loop, so every comma is removed and the result is
`"NameState"`. -/
theorem requested_properties_counterexample :
    requested_properties_to_string ["Name", "State"] = "NameState" ∧
    requested_properties_to_string ["Name", "State"] ≠ "Name,Stat" := by
  constructor
  · rfl
  · decide

/-- C1 (amended): `_requested_properties_to_string` returns the plain
concatenation of the requested names with no separators at all — the
trailing-comma trim inside the loop removes each comma as soon as it is
appended; in particular `["Name", "State"]` produces `"NameState"`. -/
theorem requested_properties_to_string_concats (requested_properties : List String) :
    requested_properties_to_string requested_properties = strConcat requested_properties ∧
    requested_properties_to_string ["Name", "State"] = "NameState" :=
  ⟨requested_properties_to_string_eq requested_properties, rfl⟩

/-- C2 (code bug): when the transport reports failure (here an HTTP 500),
`create_job` and `get_job` return the absent value `None` without
raising, but `get_job_property` raises a `TypeError`: it calls
`len(properties)` on the `None` that `get_job` returned, contradicting
the spec's rule that endpoint methods never raise for a failed HTTP
call. -/
theorem get_job_property_raises_on_transport_failure :
    (get_job_property failTr exSt "42" "State").2 = Except.error PyError.typeError ∧
    (create_job failTr exSt [("Name", "test")]).2 = Except.ok none ∧
    (get_job failTr exSt "42" none).2 = Except.ok none := by
  refine ⟨rfl, rfl, rfl⟩

/-- C3 (corrected, counterexample): the round trip does not recover every
mapping with ASCII string values: a name bound to the empty string comes
back bound to `None`, because the serialized `<Value></Value>` has no
text child. -/
theorem roundtrip_counterexample :
    get_properties_from_xml (xml_from_properties [("a", "")]) = Except.ok [("a", none)] ∧
    Except.ok [("a", none)] ≠
      (Except.ok [("a", some "")] : Except PyError (List (String × Option String))) := by
  constructor
  · rfl
  · simp

/-- C3 (amended): for every property mapping with unique non-empty names
and non-empty values, none of them containing markup-reserved characters
(no XML escaping is performed), parsing the XML produced by the payload
builder recovers the mapping exactly; and for the empty mapping the
builder produces a document from which the parser returns the empty
mapping. -/
theorem roundtrip_of_nonempty_values (props : List (String × String))
    (hgood : ∀ p ∈ props, goodTxt p.1 ∧ goodTxt p.2)
    (hne : ∀ p ∈ props, ¬p.1.data.isEmpty ∧ ¬p.2.data.isEmpty)
    (hnd : (props.map Prod.fst).Nodup) :
    get_properties_from_xml (xml_from_properties props) =
      Except.ok (props.map (fun p => (p.1, some p.2))) ∧
    get_properties_from_xml (xml_from_properties []) = Except.ok [] := by
  refine ⟨?_, rfl⟩
  rw [roundtrip_general props hgood (fun p hp => (hne p hp).1) hnd]
  congr 1
  apply List.map_congr_left
  intro p hp
  simp [normVal, (hne p hp).2]

/-- C3 witness: a two-entry mapping with non-empty names and values
round-trips exactly, and the empty mapping parses back empty. -/
theorem roundtrip_of_nonempty_values_witness :
    get_properties_from_xml (xml_from_properties [("Name", "x"), ("State", "Running")]) =
      Except.ok [("Name", some "x"), ("State", some "Running")] ∧
    get_properties_from_xml (xml_from_properties []) = Except.ok [] :=
  roundtrip_of_nonempty_values [("Name", "x"), ("State", "Running")]
    (by decide) (by decide) (by decide)

/-- C5 (confirmed): the property-list parser maps every `Property`
element's `Name` text to its `Value` text, yields `None` for a property
whose `Value` element has no text child, and raises (an IndexError, from
indexing the empty element list) instead of returning for a `Property`
with no `Name` child. -/
theorem property_parser_spec (entries : List (String × Option String))
    (hname : ∀ e ∈ entries, goodTxt e.1 ∧ ¬e.1.data.isEmpty)
    (hval : ∀ e ∈ entries, goodTxt (e.2.getD "") ∧ e.2 ≠ some "")
    (hnd : (entries.map Prod.fst).Nodup) :
    get_properties_from_xml (propListXml entries) = Except.ok entries ∧
    get_properties_from_xml missingNameXml = Except.error PyError.indexError := by
  refine ⟨?_, rfl⟩
  rw [get_properties_from_xml_propListXml entries ?_ (fun e he => (hname e he).2) hnd]
  · congr 1
    have hmapid : ∀ e ∈ entries, (fun e => (e.1, normVal e.2)) e = id e := by
      intro e he
      obtain ⟨k, v⟩ := e
      cases v with
      | none => simp [normVal]
      | some s =>
        have hs : s ≠ "" := by
          intro hcontra
          exact (hval (k, some s) he).2 (by rw [hcontra])
        have hs' : s.data ≠ [] := fun hd => hs (string_data_ext s "" hd)
        simp [normVal, hs']
    rw [List.map_congr_left hmapid, List.map_id]
  · intro e he
    exact ⟨(hname e he).1, (hval e he).1⟩

/-- C5 witness: a property with a text value parses to that value, one
with an empty `Value` element parses to `None`, and the document whose
`Property` has no `Name` child makes the parser fail. -/
theorem property_parser_spec_witness :
    get_properties_from_xml (propListXml [("State", some "Running"), ("Note", none)]) =
      Except.ok [("State", some "Running"), ("Note", none)] ∧
    get_properties_from_xml missingNameXml = Except.error PyError.indexError := by
  exact property_parser_spec [("State", some "Running"), ("Note", none)]
    (by decide) (by decide) (by decide)

/-- C10 (confirmed): a name bound to the empty string does not survive
the build/parse round trip: it comes back bound to `None`, not to the
empty string, because `<Value></Value>` parses with no text child. -/
theorem empty_value_comes_back_none (props : List (String × String)) (k : String)
    (hmem : (k, "") ∈ props)
    (hgood : ∀ p ∈ props, goodTxt p.1 ∧ goodTxt p.2)
    (hne : ∀ p ∈ props, ¬p.1.data.isEmpty)
    (hnd : (props.map Prod.fst).Nodup) :
    ∃ m, get_properties_from_xml (xml_from_properties props) = Except.ok m ∧
      m.lookup k = some none := by
  refine ⟨_, roundtrip_general props hgood hne hnd, ?_⟩
  have h := lookup_map_of_nodup props k "" (fun v => normVal (some v)) hnd hmem
  simpa [normVal] using h

/-- C10 witness: the mapping binding "a" to the empty string comes back
with "a" bound to `None`. -/
theorem empty_value_comes_back_none_witness :
    ∃ m, get_properties_from_xml (xml_from_properties [("a", "")]) = Except.ok m ∧
      m.lookup "a" = some none :=
  empty_value_comes_back_none [("a", "")] "a" (by decide) (by decide) (by decide) (by decide)

/-- C4 (confirmed): the low-level `request` returns `ok true` exactly when
the exchange completed with HTTP 200, returns `ok false` for any other
status code and for a connection-level failure (attempting exactly one
exchange), and for any method other than get/post/put raises a
RuntimeError with the client state untouched, so before any network
call. -/
theorem request_result_spec (tr : Transport) (st : St) (method url : String)
    (data : Option String) :
    ((method = "post" ∨ method = "get" ∨ method = "put") →
      (request tr st method url data).2 =
        Except.ok (match tr st.calls with
          | HttpOutcome.completed status _ => status == 200
          | HttpOutcome.connError _ => false) ∧
      (request tr st method url data).1.calls = st.calls + 1) ∧
    (¬(method = "post" ∨ method = "get" ∨ method = "put") →
      request tr st method url data =
        (st, Except.error (PyError.runtimeError
          ("HTTP method " ++ method ++ " is not supported")))) := by
  constructor
  · intro hm
    unfold request
    rw [if_pos hm]
    cases htr : tr st.calls <;> exact ⟨rfl, rfl⟩
  · intro hm
    unfold request
    rw [if_neg hm]

/-- C4 witness: HTTP 500 and a connection failure give `ok false`; an
unsupported method gives the RuntimeError with the state unchanged. -/
theorem request_result_spec_witness :
    (request failTr exSt "get" "https://example.com:443/WindowsHPC/Clusters" none).2 =
      Except.ok false ∧
    (request connTr exSt "get" "https://example.com:443/WindowsHPC/Clusters" none).2 =
      Except.ok false ∧
    request failTr exSt "delete" "u" none =
      (exSt, Except.error (PyError.runtimeError "HTTP method delete is not supported")) := by
  refine ⟨?_, ?_, ?_⟩
  · exact ((request_result_spec failTr exSt "get"
      "https://example.com:443/WindowsHPC/Clusters" none).1 (Or.inr (Or.inl rfl))).1
  · exact ((request_result_spec connTr exSt "get"
      "https://example.com:443/WindowsHPC/Clusters" none).1 (Or.inr (Or.inl rfl))).1
  · exact (request_result_spec failTr exSt "delete" "u" none).2 (by decide)

/-- C9 (confirmed): every transport exchange overwrites Last Response,
with the response body whenever the exchange completed (whatever the
status code) and with the failure's description on a connection-level
failure, and modifies no other client configuration field (host, port,
username, password, api-version, cluster name, base URL). -/
theorem request_overwrites_response_only (tr : Transport) (st : St) (method url : String)
    (data : Option String) (hm : method = "post" ∨ method = "get" ∨ method = "put") :
    (request tr st method url data).1.response =
      some (match tr st.calls with
        | HttpOutcome.completed _ body => body
        | HttpOutcome.connError desc => desc) ∧
    (request tr st method url data).1.host = st.host ∧
    (request tr st method url data).1.port = st.port ∧
    (request tr st method url data).1.username = st.username ∧
    (request tr st method url data).1.password = st.password ∧
    (request tr st method url data).1.api_version = st.api_version ∧
    (request tr st method url data).1.hpc_cluster_name = st.hpc_cluster_name ∧
    (request tr st method url data).1.base_url = st.base_url := by
  unfold request
  rw [if_pos hm]
  cases htr : tr st.calls <;> exact ⟨rfl, rfl, rfl, rfl, rfl, rfl, rfl, rfl⟩

/-- C9 witness: a connection failure stores its description as Last
Response and leaves the base URL alone; a completed non-200 exchange
stores its body. -/
theorem request_overwrites_response_only_witness :
    (request connTr exSt "put" "u" (some "d")).1.response = some "connection refused" ∧
    (request connTr exSt "put" "u" (some "d")).1.base_url = exSt.base_url ∧
    (request failTr exSt "post" "u" (some "d")).1.response =
      some "Internal Server Error" := by
  have h1 := request_overwrites_response_only connTr exSt "put" "u" (some "d")
    (Or.inr (Or.inr rfl))
  have h2 := request_overwrites_response_only failTr exSt "post" "u" (some "d")
    (Or.inl rfl)
  exact ⟨h1.1, h1.2.2.2.2.2.2.2, h2.1⟩

/-- C7 (confirmed): `set_job_properties` on a client whose api-version is
`None` raises a RuntimeError with the state — and hence the transport
call counter — unchanged, so no network call is attempted; with a
non-`None` version it proceeds to issue the PUT request, attempting
exactly one exchange. -/
theorem set_job_properties_gate (tr : Transport) (st : St) (job_id : String)
    (props : List (String × String)) :
    (st.api_version = none →
      set_job_properties tr st job_id props =
        (st, Except.error (PyError.runtimeError
          ("Minimum supported api-version: " ++ HPC_Pack_2008_R2_SP3)))) ∧
    (∀ v, st.api_version = some v →
      set_job_properties tr st job_id props =
        put tr st (st.base_url ++ "Job/" ++ job_id) (xml_from_properties props) ∧
      (set_job_properties tr st job_id props).1.calls = st.calls + 1) := by
  constructor
  · intro h
    unfold set_job_properties
    rw [h]
  · intro v h
    have hput : set_job_properties tr st job_id props =
        put tr st (st.base_url ++ "Job/" ++ job_id) (xml_from_properties props) := by
      unfold set_job_properties
      rw [h]
    refine ⟨hput, ?_⟩
    rw [hput]
    unfold put request
    rw [if_pos (Or.inr (Or.inr rfl))]
    cases htr : tr st.calls <;> rfl

/-- C7 witness: with `api_version = None` the call fails before any
exchange (zero calls recorded); with the default version it reaches the
transport once. -/
theorem set_job_properties_gate_witness :
    set_job_properties failTr { exSt with api_version := none } "1" [] =
      ({ exSt with api_version := none },
       Except.error (PyError.runtimeError "Minimum supported api-version: 2011-11-01")) ∧
    (set_job_properties failTr exSt "1" []).1.calls = 1 := by
  constructor
  · exact (set_job_properties_gate failTr { exSt with api_version := none } "1" []).1 rfl
  · exact ((set_job_properties_gate failTr exSt "1" []).2 HPC_Pack_2008_R2_SP3 rfl).2

/-- C8 (confirmed): `get_active_head_node` on a client whose configured
version is below the minimum "2012-03-31.3.4" (with `None` comparing
below every string, as in Python 2) raises NotImplementedError with the
state — and hence the transport call counter — unchanged, so before any
network call; at or above the minimum it issues the GET request,
attempting exactly one exchange. -/
theorem get_active_head_node_gate (tr : Transport) (st : St) :
    (apiVersionBelowMin st.api_version = true →
      get_active_head_node tr st =
        (st, Except.error (PyError.notImplementedError
          ("Minimum api-version supported is " ++ HPC_Pack_2008_R2_SP4)))) ∧
    (apiVersionBelowMin st.api_version = false →
      (get_active_head_node tr st).1.calls = st.calls + 1) := by
  constructor
  · intro h
    unfold get_active_head_node
    rw [if_pos h]
  · intro h
    unfold get_active_head_node
    rw [if_neg (by simp [h])]
    dsimp only
    have hg : get tr st (st.base_url ++ "ActiveHeadnode") =
        request tr st "get" (st.base_url ++ "ActiveHeadnode") none := rfl
    rw [hg]
    unfold request
    rw [if_pos (Or.inr (Or.inl rfl))]
    cases htr : tr st.calls with
    | completed status body =>
      dsimp only
      rcases Bool.eq_false_or_eq_true (status == 200) with hb | hb <;> rw [hb] <;>
        first
        | rfl
        | cases hgs : get_string_from_response body <;> simp [hgs]
    | connError desc => rfl

/-- C8 witness: the default version "2011-11-01" is below the minimum and
fails with zero transport calls; "2012-11-01.4.0" is above and reaches
the transport once. -/
theorem get_active_head_node_gate_witness :
    get_active_head_node failTr exSt =
      (exSt, Except.error (PyError.notImplementedError
        "Minimum api-version supported is 2012-03-31.3.4")) ∧
    (get_active_head_node failTr { exSt with api_version := some HPC_Pack_2012 }).1.calls = 1 := by
  constructor
  · exact (get_active_head_node_gate failTr exSt).1 rfl
  · exact (get_active_head_node_gate failTr
      { exSt with api_version := some HPC_Pack_2012 }).2 rfl

/-- C6 (confirmed): `get_clusters` returns the cluster-name leaf strings
of the discovery document as a sequence in document order, and a client
constructed without an explicit cluster name resolves its cluster name
to the first element of that sequence and uses it in the base URL of
subsequent requests. -/
theorem get_clusters_document_order (names : List String) (st : St)
    (h : ∀ n ∈ names, goodTxt n ∧ ¬n.data.isEmpty) :
    (get_clusters (fun _ => HttpOutcome.completed 200 (clustersXml names)) st).2 =
      Except.ok (some (names.map some)) ∧
    (∀ host username password port api_version,
      webAPIInit (fun _ => HttpOutcome.completed 200 (clustersXml names))
          host username password port none api_version =
        Except.ok {
          host := host, port := port, username := username, password := password,
          api_version := api_version, hpc_cluster_name := names.head?,
          base_url := mkBaseUrl host port names.head?,
          response := some (clustersXml names), calls := 1 }) := by
  constructor
  · rw [get_clusters_of_doc names st h]
  · intro host username password port api_version
    exact webAPIInit_of_doc names h host username password port api_version

/-- C6 witness: with leaves "ClusterA", "ClusterB" the sequence is
returned in document order, and a client constructed without a cluster
name resolves "ClusterA" and builds its base URL from it. -/
theorem get_clusters_document_order_witness :
    (get_clusters (fun _ => HttpOutcome.completed 200
        (clustersXml ["ClusterA", "ClusterB"])) exSt).2 =
      Except.ok (some [some "ClusterA", some "ClusterB"]) ∧
    (∃ st : St,
      webAPIInit (fun _ => HttpOutcome.completed 200
          (clustersXml ["ClusterA", "ClusterB"]))
          "h" "u" "p" 443 none (some HPC_Pack_2008_R2_SP3) = Except.ok st ∧
      st.hpc_cluster_name = some "ClusterA" ∧
      st.base_url = "https://h:443/WindowsHPC/ClusterA/") := by
  have h := get_clusters_document_order ["ClusterA", "ClusterB"] exSt (by decide)
  exact ⟨h.1, ⟨_, h.2 "h" "u" "p" 443 (some HPC_Pack_2008_R2_SP3), rfl, rfl⟩⟩

-- Quick sanity checks of the XML model (concrete evaluation).
example : minidomParse "<a><b>x</b></a>" =
    some (XmlNode.elem "a" [XmlNode.elem "b" [XmlNode.text "x"]]) := by rfl

example : get_properties_from_xml
    "<ArrayOfProperty xmlns=\"http://schemas.microsoft.com/HPCS2008R2/common\"><Property><Name>n</Name><Value>v</Value></Property></ArrayOfProperty>"
    = Except.ok [("n", some "v")] := by rfl

example : get_properties_from_xml (xml_from_properties [("a", "")]) =
    Except.ok [("a", none)] := by rfl

example : requested_properties_to_string ["Name", "State"] = "NameState" := by rfl
